import Mathlib

/-!
Verification development for the terrain synthesis pipeline of
`src/terrain.rs` (`bevy_generative`).

The pipeline (`generate_terrain`) is embedded shallowly:

* machine integers (`u32`, `usize`) become `ℕ`; the `f32`/`f64` scalar
  arithmetic of the pipeline becomes exact `ℚ` arithmetic, except for
  `f32::powf`, which is kept as an opaque collaborator function (it is the
  only transcendental operation);
* the external collaborators — `generate_noise_map` (from `noise.rs`, not
  part of the provided sources), the `colorgrad` gradient builder /
  `sharp`, the `image` crate's `to_rgba8` / `blend`, and `export_terrain`
  (from `util.rs`) — are opaque parameters gathered in `Collaborators`;
  the record of collaborator invocations a run makes is returned as a
  `List Event`;
* a `panic!`/`expect` abort of a run is `Except.error`.

The height-shaping formula of line 137 is additionally modelled over `ℝ`
(`heightShaped`) to settle the numeric range claim about it.
-/

namespace TerrainSpec

/-- 8-bit RGBA color (`[u8; 4]` as used for `Region::color` and
`Noise::base_color`); components are kept as naturals. -/
structure Rgba8 where
  r : ℕ
  g : ℕ
  b : ℕ
  a : ℕ
  deriving DecidableEq

/-- A `colorgrad::Color`: four `f64` channels, modelled as rationals. -/
structure CGColor where
  r : ℚ
  g : ℚ
  b : ℚ
  a : ℚ
  deriving DecidableEq

/-- Modelled from the spec: a `Region` gradient control point (`noise.rs` is
not among the provided sources; §3 of the spec gives a domain position and an
RGBA color, matching the uses `region.color[0..4]` / `region.position` in
`terrain.rs` lines 69-77). -/
structure Region where
  color : Rgba8
  position : ℚ
  deriving DecidableEq

/-- Modelled from the spec: the gradient configuration carried by the noise
config — output image size, quantization segment count and smoothness — as
used at `terrain.rs` lines 89-104.  The image handle it also stores is an
opaque engine resource and is omitted. -/
structure GradientCfg where
  size : ℕ × ℕ
  segments : ℕ
  smoothness : ℚ
  deriving DecidableEq

/-- Modelled from the spec: the `Noise` configuration struct of `noise.rs`
(not among the provided sources).  Fields follow §3 of the spec and the field
accesses in `terrain.rs`: derived grid `size`, the `regions` list, the
gradient configuration and the base color. -/
structure Noise where
  size : ℕ × ℕ
  regions : List Region
  gradient : GradientCfg
  base_color : Rgba8
  deriving DecidableEq

/-- The `Terrain` component (`terrain.rs` lines 11-21).  The Rust field
`export` is a reserved word in Lean and is rendered `exportFlag`. -/
structure Terrain where
  noise : Noise
  size : ℕ × ℕ
  resolution : ℕ
  wireframe : Bool
  height_exponent : ℚ
  sea_percent : ℚ
  exportFlag : Bool
  deriving DecidableEq

/-- Line 135: `let height_value = (0_f32.max(noise_value - terrain.sea_percent)) / 100.0`. -/
def height_value (noise_value sea_percent : ℚ) : ℚ :=
  max 0 (noise_value - sea_percent) / 100

/-- Row-major traversal of the vertex grid: the double loop
`for i in 0..rows { for j in 0..cols { ... push(f i j) ... } }`
(`terrain.rs` lines 130-153) pushes `f i j` in row-major order. -/
def rowMajor {α : Type} (rows cols : ℕ) (f : ℕ → ℕ → α) : List α :=
  (List.range rows).flatMap fun i => (List.range cols).map fun j => f i j

/-- The `positions` buffer (lines 130-148): per vertex `(i, j)`,
`x = (i / resolution - width / 2) + 0.5`,
`y = ((height_value * 1.2).powf(height_exponent) - 0.5) * 2`,
`z = (j / resolution - depth / 2) + 0.5`, where `powf` is the opaque
floating-point power collaborator. -/
def buildPositions (rows cols resolution : ℕ) (width depth : ℚ)
    (noise : ℕ → ℕ → ℚ) (sea_percent height_exponent : ℚ)
    (powf : ℚ → ℚ → ℚ) : List (ℚ × ℚ × ℚ) :=
  rowMajor rows cols fun i j =>
    (((i : ℚ) / (resolution : ℚ) - width / 2) + 0.5,
     (powf (height_value (noise i j) sea_percent * 1.2) height_exponent - 0.5) * 2,
     ((j : ℚ) / (resolution : ℚ) - depth / 2) + 0.5)

/-- The `normals` buffer (line 149): every vertex gets `[0.0, 1.0, 0.0]`. -/
def buildNormals (rows cols : ℕ) : List (ℚ × ℚ × ℚ) :=
  rowMajor rows cols fun _ _ => (0, 1, 0)

/-- The `uvs` buffer (line 150): raw grid coordinates `[i, j]`. -/
def buildUVs (rows cols : ℕ) : List (ℚ × ℚ) :=
  rowMajor rows cols fun i j => ((i : ℚ), (j : ℚ))

/-- The `colors` buffer (lines 140-151): per vertex the gradient sampled at
the raw noise value `noise_values[i][j]` (the `f64 -> f32` channel narrowing
of lines 141-146 is modelled as the identity on exact rationals). -/
def buildColors (rows cols : ℕ) (grad : ℚ → CGColor) (noise : ℕ → ℕ → ℚ) :
    List CGColor :=
  rowMajor rows cols fun i j => grad (noise i j)

/-- The triangle-list index buffer (lines 155-170): for each cell `(i, j)`
with `current = i*cols + j` and `next_row = (i+1)*cols + j`, the two
triangles `current, current+1, next_row` and `next_row, current+1,
next_row+1`. -/
def triangleIndices (rows cols : ℕ) : List ℕ :=
  (List.range (rows - 1)).flatMap fun i =>
    (List.range (cols - 1)).flatMap fun j =>
      [i * cols + j, i * cols + j + 1, (i + 1) * cols + j,
       (i + 1) * cols + j, i * cols + j + 1, (i + 1) * cols + j + 1]

/-- The wireframe conversion (lines 172-181): with
`triangle_number = indices.len() / 3`, for each `i < triangle_number` and
each `j` in `[0, 1, 1, 2, 2, 0]` push `cloned_indices[i * 3 + j]`.  The Rust
indexing panics out of bounds; every access here is in bounds (proved below),
so it is rendered with `List.getD _ _ 0`. -/
def wireframeIndices (idx : List ℕ) : List ℕ :=
  (List.range (idx.length / 3)).flatMap fun i =>
    ([0, 1, 1, 2, 2, 0] : List ℕ).map fun j => idx.getD (i * 3 + j) 0

/-- The final index buffer (lines 155-181): the triangle buffer, rewritten by
the wireframe conversion when the `wireframe` flag is set. -/
def meshIndices (wireframe : Bool) (rows cols : ℕ) : List ℕ :=
  if wireframe then wireframeIndices (triangleIndices rows cols)
  else triangleIndices rows cols

/-- The gradient preview rasterizer (lines 96-107): an image buffer of the
requested size filled with `base_color`, then each pixel at column `x`
becomes the gradient sample at `x * 100 / width`, converted to 8-bit RGBA by
the opaque `to_rgba8` collaborator and alpha-composited over the base color
by the opaque `blend` collaborator (`blend bottom top`).  The image is the
list of its `h` rows, each a list of `w` pixels. -/
def rasterizeGradient (w h : ℕ) (base : Rgba8) (grad : ℚ → CGColor)
    (to_rgba8 : CGColor → Rgba8) (blend : Rgba8 → Rgba8 → Rgba8) :
    List (List Rgba8) :=
  (List.range h).map fun _ =>
    (List.range w).map fun x : ℕ => blend base (to_rgba8 (grad ((x : ℚ) * 100 / (w : ℚ))))

/-- Lines 69-77: region colors scaled from `u8` channels to `f64` in `[0,1]`. -/
def regionColors (regions : List Region) : List CGColor :=
  regions.map fun rg =>
    ⟨(rg.color.r : ℚ) / 255, (rg.color.g : ℚ) / 255,
     (rg.color.b : ℚ) / 255, (rg.color.a : ℚ) / 255⟩

/-- Lines 69-77: the declared gradient domain, the region positions in order. -/
def regionDomain (regions : List Region) : List ℚ :=
  regions.map fun rg => rg.position

/-- Lines 78-87: the gradient build with its fallback.  `declared` is the
outcome of the `colorgrad` build over the declared domain, `fallback` the
outcome of the build of the same colors without a domain.  Rust evaluates the
argument of `unwrap_or` eagerly, so the fallback build (and its `expect`,
which aborts the run when it fails) runs before `unwrap_or` chooses. -/
def buildOrFallback {γ : Type} (declared fallback : Option γ) : Except String γ :=
  match fallback with
  | none => Except.error "Gradient generation failed"
  | some g => Except.ok (declared.getD g)

/-- Lines 195-198: `if terrain.export { export_terrain(..); terrain.export =
false }` — the forwarded payload (if any) and the flag afterwards. -/
def exportStep {π : Type} (flag : Bool) (payload : π) : Option π × Bool :=
  if flag then (some payload, false) else (none, flag)

/-- An invocation of an external collaborator that a run performs, with its
arguments: `generate_noise_map` (line 65) or `export_terrain` (line 196). -/
inductive Event where
  | noiseGen : Noise → Event
  | exportCall : List (ℚ × ℚ × ℚ) → List ℕ → List CGColor → Event
  deriving DecidableEq

/-- Whether an event is an `export_terrain` invocation. -/
def isExport : Event → Bool
  | Event.exportCall _ _ _ => true
  | _ => false

/-- The opaque external collaborators of the pipeline: the noise generator of
`noise.rs`, the `colorgrad` builds (with and without the declared domain),
`Gradient::sharp`, `Color::to_rgba8`, `Rgba::blend` and `f32::powf`. -/
structure Collaborators where
  generate_noise_map : Noise → (ℕ → ℕ → ℚ)
  buildDeclared : List CGColor → List ℚ → Option (ℚ → CGColor)
  buildAuto : List CGColor → Option (ℚ → CGColor)
  sharp : (ℚ → CGColor) → ℕ → ℚ → (ℚ → CGColor)
  toRgba8 : CGColor → Rgba8
  blend : Rgba8 → Rgba8 → Rgba8
  powf : ℚ → ℚ → ℚ

/-- The outcome of a run that reached the end of the loop body: the
rasterized gradient image, the four vertex buffers, the final index buffer,
the payload forwarded to `export_terrain` (if any) and the value of the
export flag after the run. -/
structure RunOutput where
  image : List (List Rgba8)
  positions : List (ℚ × ℚ × ℚ)
  normals : List (ℚ × ℚ × ℚ)
  uvs : List (ℚ × ℚ)
  colors : List CGColor
  indices : List ℕ
  exported : Option (List (ℚ × ℚ × ℚ) × List ℕ × List CGColor)
  exportFlagAfter : Bool
  deriving DecidableEq

/-- What one run of the loop body observably does: the collaborator
invocations it performs, in order, and its outcome (`Except.error` when the
run aborts in a `panic!`/`expect`). -/
structure RunResult where
  calls : List Event
  result : Except String RunOutput

/-- Lines 61-64: the derived noise grid size, `size * resolution` per axis. -/
def derivedNoise (t : Terrain) : Noise :=
  { t.noise with size := (t.size.1 * t.resolution, t.size.2 * t.resolution) }

/-- Lines 89-198, the part of the loop body after a successful gradient
build: optional `sharp` quantization, rasterization, the vertex and index
buffers (`rows = size[0]*resolution + 1`, `cols = size[1]*resolution + 1`,
`width = size[0] + 1`, `depth = size[1] + 1`) and the export step. -/
def meshOutput (t : Terrain) (C : Collaborators) (grad0 : ℚ → CGColor) :
    RunOutput :=
  let noiseValues := C.generate_noise_map (derivedNoise t)
  let grad := if t.noise.gradient.segments ≠ 0 then
      C.sharp grad0 t.noise.gradient.segments t.noise.gradient.smoothness
    else grad0
  let rows := t.size.1 * t.resolution + 1
  let cols := t.size.2 * t.resolution + 1
  let positions := buildPositions rows cols t.resolution
      ((t.size.1 : ℚ) + 1) ((t.size.2 : ℚ) + 1) noiseValues
      t.sea_percent t.height_exponent C.powf
  let vcolors := buildColors rows cols grad noiseValues
  let indices := meshIndices t.wireframe rows cols
  let ex := exportStep t.exportFlag (positions, indices, vcolors)
  { image := rasterizeGradient t.noise.gradient.size.1 t.noise.gradient.size.2
      t.noise.base_color grad C.toRgba8 C.blend,
    positions := positions,
    normals := buildNormals rows cols,
    uvs := buildUVs rows cols,
    colors := vcolors,
    indices := indices,
    exported := ex.1,
    exportFlagAfter := ex.2 }

/-- The run result as a function of the gradient-build outcome: an error
there aborts the run (after the noise invocation of line 65); otherwise the
rest of the loop body runs, and an `export_terrain` invocation is recorded
when the export step forwarded a payload. -/
def assembleRun (t : Terrain) (C : Collaborators) :
    Except String (ℚ → CGColor) → RunResult
  | Except.error e => ⟨[Event.noiseGen (derivedNoise t)], Except.error e⟩
  | Except.ok grad0 =>
      let out := meshOutput t C grad0
      ⟨[Event.noiseGen (derivedNoise t)] ++
         (match out.exported with
          | some p => [Event.exportCall p.1 p.2.1 p.2.2]
          | none => []),
       Except.ok out⟩

/-- One iteration of the `generate_terrain` loop body (lines 57-198) for one
terrain entity.  `generate_noise_map` is invoked first (line 65),
unconditionally; then the gradient build with its fallback (lines 78-87) —
a failure of the fallback build aborts the run; then the rest of the body. -/
def generate_terrain (t : Terrain) (C : Collaborators) : RunResult :=
  assembleRun t C
    (buildOrFallback
      (C.buildDeclared (regionColors t.noise.regions) (regionDomain t.noise.regions))
      (C.buildAuto (regionColors t.noise.regions)))

/-- The height-shaping formula of line 137 read over the reals:
`((heightRaw * 1.2) ^ heightExponent - 0.5) * 2`, with `^` the real power
`Real.rpow` (the idealization of `f32::powf`). -/
noncomputable def heightShaped (heightRaw heightExponent : ℝ) : ℝ :=
  ((heightRaw * 1.2) ^ heightExponent - 0.5) * 2

/-- A trivial concrete instantiation of the collaborators, used to evaluate
the pipeline on concrete configurations. -/
def collabW : Collaborators :=
  { generate_noise_map := fun _ => fun _ _ => 0
    buildDeclared := fun _ _ => some fun _ => ⟨0, 0, 0, 0⟩
    buildAuto := fun _ => some fun _ => ⟨0, 0, 0, 0⟩
    sharp := fun g _ _ => g
    toRgba8 := fun _ => ⟨0, 0, 0, 0⟩
    blend := fun _ top => top
    powf := fun _ _ => 0 }

/-- A minimal terrain configuration with the export flag armed: base size
`[0, 0]`, resolution `0` (a single vertex, no cells), no regions. -/
def terrainW : Terrain :=
  { noise := { size := (0, 0), regions := [],
               gradient := { size := (0, 0), segments := 0, smoothness := 0 },
               base_color := ⟨0, 0, 0, 0⟩ }
    size := (0, 0)
    resolution := 0
    wireframe := false
    height_exponent := 1
    sea_percent := 0
    exportFlag := true }

/-- `terrainW` with the export flag unset. -/
def terrainE : Terrain :=
  { terrainW with exportFlag := false }

/-- The output of running `terrainW` under `collabW`: one vertex at
`(0, -1, 0)`, no indices, the payload forwarded to the export collaborator
and the flag cleared. -/
def outW : RunOutput :=
  { image := []
    positions := [((0 : ℚ), (-1 : ℚ), (0 : ℚ))]
    normals := [(0, 1, 0)]
    uvs := [(0, 0)]
    colors := [⟨0, 0, 0, 0⟩]
    indices := []
    exported := some ([(0, -1, 0)], [], [⟨0, 0, 0, 0⟩])
    exportFlagAfter := false }

/-- The output of running `terrainE` under `collabW`: as `outW` but with no
export invocation. -/
def outE : RunOutput :=
  { outW with exported := none, exportFlagAfter := false }

/-! ### Helper lemmas about the buffer builders -/

lemma except_ok_of_toOption {ε α : Type} {x : Except ε α} {a : α}
    (h : x.toOption = some a) : x = Except.ok a := by
  cases x with
  | error e => simp [Except.toOption] at h
  | ok b => simpa [Except.toOption] using h

/-- Running the armed configuration `terrainW` under `collabW` finishes and
produces exactly `outW`. -/
lemma runW_ok : (generate_terrain terrainW collabW).result = Except.ok outW := by
  norm_num [generate_terrain, terrainW, collabW, outW, assembleRun, meshOutput,
    buildOrFallback, regionColors, regionDomain, derivedNoise, exportStep,
    buildPositions, buildNormals, buildUVs, buildColors, meshIndices,
    triangleIndices, wireframeIndices, rasterizeGradient, rowMajor,
    height_value, List.range_succ, List.range_zero]

/-- Running the unarmed configuration `terrainE` under `collabW` finishes
and produces exactly `outE`. -/
lemma runE_ok : (generate_terrain terrainE collabW).result = Except.ok outE := by
  norm_num [generate_terrain, terrainE, terrainW, collabW, outE, outW,
    assembleRun, meshOutput, buildOrFallback, regionColors, regionDomain,
    derivedNoise, exportStep, buildPositions, buildNormals, buildUVs,
    buildColors, meshIndices, triangleIndices, wireframeIndices,
    rasterizeGradient, rowMajor, height_value, List.range_succ, List.range_zero]

lemma length_flatMap_const {α β : Type} (l : List α) (f : α → List β) (n : ℕ)
    (h : ∀ a ∈ l, (f a).length = n) : (l.flatMap f).length = l.length * n := by
  induction l with
  | nil => simp
  | cons a t ih =>
      simp only [List.flatMap_cons, List.length_append, List.length_cons]
      rw [h a (List.mem_cons_self a t), ih (fun b hb => h b (List.mem_cons_of_mem a hb))]
      ring

lemma rowMajor_length {α : Type} (rows cols : ℕ) (f : ℕ → ℕ → α) :
    (rowMajor rows cols f).length = rows * cols := by
  rw [rowMajor, length_flatMap_const _ _ cols (fun a _ => by simp), List.length_range]

lemma rowMajor_succ {α : Type} (n cols : ℕ) (f : ℕ → ℕ → α) :
    rowMajor (n + 1) cols f = rowMajor n cols f ++ (List.range cols).map (f n) := by
  simp [rowMajor, List.range_succ]

lemma rowMajor_getElem? {α : Type} {rows cols : ℕ} (f : ℕ → ℕ → α)
    {i j : ℕ} (hi : i < rows) (hj : j < cols) :
    (rowMajor rows cols f)[i * cols + j]? = some (f i j) := by
  induction rows with
  | zero => omega
  | succ n ih =>
      rw [rowMajor_succ]
      rcases Nat.lt_succ_iff_lt_or_eq.mp hi with h | h
      · rw [List.getElem?_append_left, ih h]
        rw [rowMajor_length]
        calc i * cols + j < i * cols + cols := by omega
          _ = (i + 1) * cols := by ring
          _ ≤ n * cols := Nat.mul_le_mul_right cols h
      · subst h
        have hl : (rowMajor i cols f).length = i * cols := rowMajor_length ..
        rw [List.getElem?_append_right (by omega), hl,
          Nat.add_sub_cancel_left, List.getElem?_map, List.getElem?_range hj]
        rfl

lemma flatMap_blocks_drop_take {α : Type} (B : ℕ → List α) (L : ℕ)
    (hB : ∀ k, (B k).length = L) :
    ∀ T s k, k < T →
      (((List.range' s T).flatMap B).drop (L * k)).take L = B (s + k) := by
  intro T
  induction T with
  | zero => intro s k hk; omega
  | succ n ih =>
      intro s k hk
      rw [List.range'_succ, List.flatMap_cons]
      cases k with
      | zero =>
          simp only [Nat.mul_zero, List.drop_zero, Nat.add_zero]
          rw [List.take_append_of_le_length (by rw [hB]), List.take_of_length_le (by rw [hB])]
      | succ m =>
          have hL : L * (m + 1) = L + L * m := by ring
          rw [hL, ← List.drop_drop, List.drop_left' (hB s), ih (s + 1) m (by omega)]
          congr 1
          omega

lemma triangleIndices_length (rows cols : ℕ) :
    (triangleIndices rows cols).length = 6 * (rows - 1) * (cols - 1) := by
  rw [triangleIndices, length_flatMap_const _ _ ((cols - 1) * 6) ?_, List.length_range]
  · ring
  · intro i _
    rw [length_flatMap_const _ _ 6 (fun j _ => by simp), List.length_range]

lemma triangleIndices_lt (rows cols : ℕ) :
    ∀ e ∈ triangleIndices rows cols, e < rows * cols := by
  intro e he
  simp only [triangleIndices, List.mem_flatMap, List.mem_range] at he
  obtain ⟨i, hi, j, hj, hmem⟩ := he
  have key : (i + 2) * cols ≤ rows * cols := Nat.mul_le_mul_right cols (by omega)
  have exp2 : (i + 2) * cols = i * cols + cols + cols := by ring
  have exp1 : (i + 1) * cols = i * cols + cols := by ring
  rw [exp2] at key
  simp only [List.mem_cons, List.not_mem_nil, or_false] at hmem
  rcases hmem with rfl | rfl | rfl | rfl | rfl | rfl <;> omega

lemma wireframeIndices_mem (l : List ℕ) : ∀ e ∈ wireframeIndices l, e ∈ l := by
  intro e he
  simp only [wireframeIndices, List.mem_flatMap, List.mem_range, List.mem_map] at he
  obtain ⟨i, hi, j, hj, rfl⟩ := he
  have hj2 : j ≤ 2 := by
    simp only [List.mem_cons, List.not_mem_nil, or_false] at hj
    omega
  have hlt : i * 3 + j < l.length := by omega
  rw [List.getD_eq_getElem?_getD, List.getElem?_eq_getElem hlt, Option.getD_some]
  exact List.getElem_mem hlt

/-! ### The claims -/

/-- C1: for every terrain build with base size `[w, d]` and resolution `r`,
with `rows = w*r + 1` and `cols = d*r + 1`, the builder emits exactly
`rows * cols` vertices — the positions, normals, UVs and colors buffers each
have that length — and, in triangle mode, exactly `6*(rows-1)*(cols-1)`
index entries. -/
theorem C1_vertex_and_index_counts (w d r : ℕ) (width depth : ℚ)
    (noise : ℕ → ℕ → ℚ) (sea he : ℚ) (powf : ℚ → ℚ → ℚ) (grad : ℚ → CGColor) :
    (buildPositions (w * r + 1) (d * r + 1) r width depth noise sea he powf).length
        = (w * r + 1) * (d * r + 1) ∧
    (buildNormals (w * r + 1) (d * r + 1)).length = (w * r + 1) * (d * r + 1) ∧
    (buildUVs (w * r + 1) (d * r + 1)).length = (w * r + 1) * (d * r + 1) ∧
    (buildColors (w * r + 1) (d * r + 1) grad noise).length = (w * r + 1) * (d * r + 1) ∧
    (meshIndices false (w * r + 1) (d * r + 1)).length
        = 6 * ((w * r + 1) - 1) * ((d * r + 1) - 1) := by
  refine ⟨?_, ?_, ?_, ?_, ?_⟩
  · exact rowMajor_length ..
  · exact rowMajor_length ..
  · exact rowMajor_length ..
  · exact rowMajor_length ..
  · rw [meshIndices, if_neg (by simp), triangleIndices_length]

/-- C2: for every triangle-list index buffer whose length is divisible by 3,
the wireframe conversion produces a line-list buffer of exactly twice the
length, and the `k`-th triangle `(a, b, c)` at positions `3k, 3k+1, 3k+2`
contributes exactly the six index values `a, b, b, c, c, a` in that order
(positions `6k .. 6k+5` of the output), with no deduplication of shared
edges. -/
theorem C2_wireframe_doubling (idx : List ℕ) (h3 : 3 ∣ idx.length) :
    (wireframeIndices idx).length = 2 * idx.length ∧
    ∀ k a b c, idx[3 * k]? = some a → idx[3 * k + 1]? = some b →
      idx[3 * k + 2]? = some c →
      ((wireframeIndices idx).drop (6 * k)).take 6 = [a, b, b, c, c, a] := by
  constructor
  · rw [wireframeIndices, length_flatMap_const _ _ 6 (fun i _ => by simp),
      List.length_range]
    omega
  · intro k a b c ha hb hc
    have hc' : 3 * k + 2 < idx.length := (List.getElem?_eq_some_iff.mp hc).1
    have hk : k < idx.length / 3 := by omega
    have hblock := flatMap_blocks_drop_take
      (fun i => ([0, 1, 1, 2, 2, 0] : List ℕ).map fun j => idx.getD (i * 3 + j) 0)
      6 (fun i => by simp) (idx.length / 3) 0 k hk
    rw [wireframeIndices, List.range_eq_range', hblock, Nat.zero_add]
    simp only [List.map_cons, List.map_nil, List.getD_eq_getElem?_getD]
    rw [show k * 3 + 0 = 3 * k by ring, show k * 3 + 1 = 3 * k + 1 by ring,
      show k * 3 + 2 = 3 * k + 2 by ring, ha, hb, hc]
    rfl

/-- Witness for C2 at the concrete buffer `[0, 1, 2, 3, 4, 5]`: its second
triangle `(3, 4, 5)` contributes `3, 4, 4, 5, 5, 3`, and the conversion
doubles the length. -/
theorem C2_wireframe_doubling_witness :
    (wireframeIndices [0, 1, 2, 3, 4, 5]).length = 2 * 6 ∧
    ((wireframeIndices [0, 1, 2, 3, 4, 5]).drop 6).take 6 = [3, 4, 4, 5, 5, 3] := by
  constructor
  · exact (C2_wireframe_doubling [0, 1, 2, 3, 4, 5] (by decide)).1
  · exact (C2_wireframe_doubling [0, 1, 2, 3, 4, 5] (by decide)).2 1 3 4 5 rfl rfl rfl

/-- C3: for every grid vertex, `heightRaw = max(0, noiseValue - seaPercent)
/ 100`; any noise value at or below the sea percent yields exactly `0`, and
with sea percent `50` a noise value of `30` yields `0` while `80` yields
`0.3`. -/
theorem C3_sea_level_clamp :
    (∀ n s : ℚ, n ≤ s → height_value n s = 0) ∧
    height_value 30 50 = 0 ∧ height_value 80 50 = 3 / 10 := by
  refine ⟨fun n s h => ?_, by norm_num [height_value], by norm_num [height_value]⟩
  have h0 : n - s ≤ 0 := by linarith
  rw [height_value, max_eq_left h0, zero_div]

/-- Witness for C3: the clamp branch at the concrete pair `30 ≤ 50`. -/
theorem C3_sea_level_clamp_witness :
    (30 : ℚ) ≤ 50 ∧ height_value 30 50 = 0 :=
  ⟨by norm_num, C3_sea_level_clamp.1 30 50 (by norm_num)⟩

/-- C5 counterexample: with `heightRaw = 1` (allowed, `1 ∈ [0,1]`) and
`heightExponent = 4` (allowed, `4 ≥ 0`), the shaped height is
`((1 * 1.2)^4 - 0.5) * 2 = 3.1472`, well above the claimed upper bound
`~1.88`: the interval claim fails for large exponents. -/
theorem C5_counterexample :
    heightShaped 1 4 = 1967 / 625 ∧ (1.88 : ℝ) < heightShaped 1 4 := by
  have h4 : ((1 : ℝ) * 1.2) ^ (4 : ℝ) = (1.2 : ℝ) ^ (4 : ℕ) := by
    rw [one_mul, show (4 : ℝ) = ((4 : ℕ) : ℝ) by norm_num, Real.rpow_natCast]
  constructor
  · rw [heightShaped, h4]; norm_num
  · rw [heightShaped, h4]; norm_num

/-- C5 (amended): for `heightRaw ∈ [0, 1]` and `heightExponent ≥ 0` the
real-valued shaping formula is total (so never NaN) and bounded below by
`-2` (indeed by `-1`); the claimed upper bound holds only for bounded
exponents — for `heightExponent ≤ 2` the value is at most `1.88` exactly,
while for larger exponents it grows without bound (see the
counterexample). -/
theorem C5_height_range (hr e : ℝ) (h0 : 0 ≤ hr) (h1 : hr ≤ 1) (he : 0 ≤ e) :
    -2 ≤ heightShaped hr e ∧ (e ≤ 2 → heightShaped hr e ≤ 1.88) := by
  have hx0 : (0 : ℝ) ≤ hr * 1.2 := mul_nonneg h0 (by norm_num)
  constructor
  · have hnn := Real.rpow_nonneg hx0 e
    rw [heightShaped]
    nlinarith
  · intro he2
    have hub : (hr * 1.2) ^ e ≤ 1.44 := by
      rcases le_or_lt (hr * 1.2) 1 with hx1 | hx1
      · have := Real.rpow_le_one hx0 hx1 he
        linarith
      · have h12 : hr * 1.2 ≤ 1.2 := by nlinarith
        have s1 : (hr * 1.2) ^ e ≤ (hr * 1.2) ^ (2 : ℝ) :=
          Real.rpow_le_rpow_of_exponent_le (le_of_lt hx1) he2
        have s2 : (hr * 1.2) ^ (2 : ℝ) ≤ (1.2 : ℝ) ^ (2 : ℝ) :=
          Real.rpow_le_rpow hx0 h12 (by norm_num)
        have s3 : (1.2 : ℝ) ^ (2 : ℝ) = 1.44 := by
          rw [show (2 : ℝ) = ((2 : ℕ) : ℝ) by norm_num, Real.rpow_natCast]
          norm_num
        linarith
    rw [heightShaped]
    nlinarith

/-- Witness for the amended C5 at `heightRaw = 1/2`, `heightExponent = 1`. -/
theorem C5_height_range_witness :
    -2 ≤ heightShaped (1 / 2) 1 ∧ heightShaped (1 / 2) 1 ≤ 1.88 :=
  ⟨(C5_height_range (1 / 2) 1 (by norm_num) (by norm_num) (by norm_num)).1,
   (C5_height_range (1 / 2) 1 (by norm_num) (by norm_num) (by norm_num)).2 (by norm_num)⟩

/-- C6: the per-vertex color at grid coordinate `(i, j)` is the gradient
evaluated at the raw, unclamped noise value `noise i j` (not the
sea-adjusted height), so two vertices with equal raw noise values receive
equal colors. -/
theorem C6_color_from_raw_noise (rows cols : ℕ) (grad : ℚ → CGColor)
    (noise : ℕ → ℕ → ℚ) (i j i' j' : ℕ)
    (hi : i < rows) (hj : j < cols) (hi' : i' < rows) (hj' : j' < cols) :
    (buildColors rows cols grad noise)[i * cols + j]? = some (grad (noise i j)) ∧
    (noise i j = noise i' j' →
      (buildColors rows cols grad noise)[i * cols + j]? =
        (buildColors rows cols grad noise)[i' * cols + j']?) := by
  constructor
  · exact rowMajor_getElem? _ hi hj
  · intro hnn
    rw [buildColors, rowMajor_getElem? _ hi hj, rowMajor_getElem? _ hi' hj', hnn]

/-- Witness for C6 on a concrete 2×1 grid with constant noise: the two
vertices get the same color, sampled at the raw noise value. -/
theorem C6_color_from_raw_noise_witness :
    (buildColors 2 1 (fun q => ⟨q, 0, 0, 1⟩) (fun _ _ => 7))[0 * 1 + 0]? =
        some ⟨7, 0, 0, 1⟩ ∧
    (buildColors 2 1 (fun q => ⟨q, 0, 0, 1⟩) (fun _ _ => 7))[0 * 1 + 0]? =
      (buildColors 2 1 (fun q => ⟨q, 0, 0, 1⟩) (fun _ _ => 7))[1 * 1 + 0]? :=
  ⟨(C6_color_from_raw_noise 2 1 (fun q => ⟨q, 0, 0, 1⟩) (fun _ _ => 7) 0 0 1 0
      (by norm_num) (by norm_num) (by norm_num) (by norm_num)).1,
   (C6_color_from_raw_noise 2 1 (fun q => ⟨q, 0, 0, 1⟩) (fun _ _ => 7) 0 0 1 0
      (by norm_num) (by norm_num) (by norm_num) (by norm_num)).2 rfl⟩

/-- C7: with the two `colorgrad` build outcomes abstract — `declared` over
the declared region-position domain, `fallback` over the automatic evenly
spaced domain — and under the collaborator property that the evenly spaced
fallback can only fail when the declared-domain build fails too (an evenly
spaced default domain is always well formed, so only the shared color
sequence can be at fault): a declared-domain failure falls back to the
automatic build, the run is fatal exactly when both builds fail, and a
successful declared-domain build is used unchanged. -/
theorem C7_gradient_fallback (declared fallback : Option (ℚ → CGColor))
    (hfb : fallback = none → declared = none) :
    (∀ g, declared = some g → buildOrFallback declared fallback = Except.ok g) ∧
    (declared = none → ∀ g, fallback = some g →
      buildOrFallback declared fallback = Except.ok g) ∧
    (buildOrFallback declared fallback = Except.error "Gradient generation failed" ↔
      declared = none ∧ fallback = none) := by
  rcases declared with _ | g1 <;> rcases fallback with _ | g2
  · simp [buildOrFallback]
  · simp [buildOrFallback]
  · exact absurd (hfb rfl) (by simp)
  · simp [buildOrFallback]

/-- Witness for C7: with both builds succeeding, the declared result is
used unchanged. -/
theorem C7_gradient_fallback_witness :
    buildOrFallback (some fun _ : ℚ => (⟨0, 0, 0, 1⟩ : CGColor))
        (some fun _ : ℚ => (⟨1, 1, 1, 1⟩ : CGColor)) =
      Except.ok (fun _ : ℚ => (⟨0, 0, 0, 1⟩ : CGColor)) :=
  (C7_gradient_fallback (some fun _ : ℚ => ⟨0, 0, 0, 1⟩)
    (some fun _ : ℚ => ⟨1, 1, 1, 1⟩) (by simp)).1 _ rfl

/-- C9: the rasterizer output has exactly the requested `w × h` size, the
pixel at column `x` of any row is the gradient sample at `x * 100 / w`
converted to 8-bit RGBA and alpha-blended over the base color, and all rows
are identical (the image is column-uniform). -/
theorem C9_rasterizer (w h : ℕ) (base : Rgba8) (grad : ℚ → CGColor)
    (toR : CGColor → Rgba8) (blend : Rgba8 → Rgba8 → Rgba8) :
    (rasterizeGradient w h base grad toR blend).length = h ∧
    (∀ row ∈ rasterizeGradient w h base grad toR blend, row.length = w) ∧
    (∀ y x, y < h → x < w →
      ((rasterizeGradient w h base grad toR blend).getD y [])[x]? =
        some (blend base (toR (grad ((x : ℚ) * 100 / (w : ℚ)))))) ∧
    (∀ y y', y < h → y' < h →
      (rasterizeGradient w h base grad toR blend).getD y [] =
        (rasterizeGradient w h base grad toR blend).getD y' []) := by
  have hrep : rasterizeGradient w h base grad toR blend =
      List.replicate h ((List.range w).map fun x : ℕ =>
        blend base (toR (grad ((x : ℚ) * 100 / (w : ℚ))))) := by
    rw [rasterizeGradient, List.map_const', List.length_range]
  refine ⟨?_, ?_, ?_, ?_⟩
  · rw [hrep, List.length_replicate]
  · intro row hrow
    rw [hrep] at hrow
    rw [List.eq_of_mem_replicate hrow, List.length_map, List.length_range]
  · intro y x hy hx
    rw [hrep, List.getD_eq_getElem?_getD, List.getElem?_replicate_of_lt hy,
      Option.getD_some, List.getElem?_map, List.getElem?_range hx, Option.map_some']
  · intro y y' hy hy'
    rw [hrep, List.getD_eq_getElem?_getD, List.getD_eq_getElem?_getD,
      List.getElem?_replicate_of_lt hy, List.getElem?_replicate_of_lt hy']

/-- Witness for C9: a 1×1 image where blending returns the top color; the
single pixel is the converted gradient sample. -/
theorem C9_rasterizer_witness :
    ((rasterizeGradient 1 1 ⟨9, 9, 9, 9⟩ (fun _ => ⟨1, 0, 0, 1⟩)
        (fun _ => ⟨1, 2, 3, 4⟩) (fun _ top => top)).getD 0 [])[0]? =
      some ⟨1, 2, 3, 4⟩ :=
  (C9_rasterizer 1 1 ⟨9, 9, 9, 9⟩ (fun _ => ⟨1, 0, 0, 1⟩) (fun _ => ⟨1, 2, 3, 4⟩)
    (fun _ top => top)).2.2.1 0 0 (by norm_num) (by norm_num)

/-- C10: every index emitted into the final index buffer — triangle mode and
wireframe mode alike — is strictly below the vertex count `rows * cols`;
every output entry of the wireframe conversion is an entry of its input
buffer; and every read `i * 3 + j` the conversion performs is within the
input buffer's bounds. -/
theorem C10_indices_in_bounds (rows cols : ℕ) (wf : Bool) :
    (∀ e ∈ meshIndices wf rows cols, e < rows * cols) ∧
    (∀ l : List ℕ, ∀ e ∈ wireframeIndices l, e ∈ l) ∧
    (∀ l : List ℕ, ∀ i j : ℕ, i < l.length / 3 →
      j ∈ ([0, 1, 1, 2, 2, 0] : List ℕ) → i * 3 + j < l.length) := by
  refine ⟨?_, fun l => wireframeIndices_mem l, fun l i j hi hj => ?_⟩
  · intro e he
    cases wf with
    | false =>
        rw [meshIndices, if_neg (by simp)] at he
        exact triangleIndices_lt rows cols e he
    | true =>
        rw [meshIndices, if_pos rfl] at he
        exact triangleIndices_lt rows cols e
          (wireframeIndices_mem (triangleIndices rows cols) e he)
  · have hj2 : j ≤ 2 := by
      simp only [List.mem_cons, List.not_mem_nil, or_false] at hj
      omega
    omega

/-- Witness for C10 on the 2×2 grid: index `3` is emitted and is below the
vertex count `4`. -/
theorem C10_indices_in_bounds_witness :
    3 ∈ meshIndices false 2 2 ∧ 3 < 2 * 2 :=
  ⟨by decide, (C10_indices_in_bounds 2 2 false).1 3 (by decide)⟩

/-- A run that finishes (result `ok`) forwards the buffers to the export
collaborator exactly when the export flag was set — the forwarded payload
being the final positions, indices and colors — and always leaves the flag
cleared afterwards. -/
lemma generate_terrain_ok_spec (t : Terrain) (C : Collaborators) (out : RunOutput)
    (h : (generate_terrain t C).result = Except.ok out) :
    out.exported =
      (if t.exportFlag then some (out.positions, out.indices, out.colors) else none) ∧
    out.exportFlagAfter = false ∧
    (generate_terrain t C).calls.filter isExport =
      (if t.exportFlag then [Event.exportCall out.positions out.indices out.colors]
       else []) := by
  rcases hb : buildOrFallback
      (C.buildDeclared (regionColors t.noise.regions) (regionDomain t.noise.regions))
      (C.buildAuto (regionColors t.noise.regions)) with e | g0
  · rw [generate_terrain, hb] at h
    simp [assembleRun] at h
  · rw [generate_terrain, hb] at h
    simp only [assembleRun, Except.ok.injEq] at h
    subst h
    rw [generate_terrain, hb]
    cases hf : t.exportFlag with
    | false => simp [assembleRun, meshOutput, exportStep, hf, isExport]
    | true => simp [assembleRun, meshOutput, exportStep, hf, isExport]

/-- C4: a finished run with the export flag set forwards the final
positions, indices and colors to the export collaborator exactly once and
clears the flag; a finished run with the flag unset performs no export
invocation and the flag stays unset; hence a subsequent finished run whose
flag was (only) inherited from the first run's cleared flag never invokes
the export collaborator. -/
theorem C4_export_one_shot (t : Terrain) (C : Collaborators) (out : RunOutput)
    (h : (generate_terrain t C).result = Except.ok out) :
    (t.exportFlag = true →
      out.exported = some (out.positions, out.indices, out.colors) ∧
      (generate_terrain t C).calls.filter isExport =
        [Event.exportCall out.positions out.indices out.colors] ∧
      out.exportFlagAfter = false) ∧
    (t.exportFlag = false →
      out.exported = none ∧
      (generate_terrain t C).calls.filter isExport = [] ∧
      out.exportFlagAfter = false) ∧
    (∀ t' C' out', t'.exportFlag = out.exportFlagAfter →
      (generate_terrain t' C').result = Except.ok out' →
      out'.exported = none ∧ (generate_terrain t' C').calls.filter isExport = []) := by
  obtain ⟨h1, h2, h3⟩ := generate_terrain_ok_spec t C out h
  refine ⟨fun hf => ?_, fun hf => ?_, fun t' C' out' hflag hok => ?_⟩
  · rw [hf] at h1 h3
    simp only [if_pos] at h1 h3
    exact ⟨h1, h3, h2⟩
  · rw [hf] at h1 h3
    simp only [Bool.false_eq_true, if_neg, if_false] at h1 h3
    exact ⟨h1, h3, h2⟩
  · have hff : t'.exportFlag = false := by rw [hflag, h2]
    obtain ⟨g1, g2, g3⟩ := generate_terrain_ok_spec t' C' out' hok
    rw [hff] at g1 g3
    simp only [Bool.false_eq_true, if_neg, if_false] at g1 g3
    exact ⟨g1, g3⟩

/-- Witness for C4: the concrete armed configuration `terrainW` exports its
(single-vertex) buffers and clears the flag. -/
theorem C4_export_one_shot_witness :
    terrainW.exportFlag = true ∧
    outW.exported = some (outW.positions, outW.indices, outW.colors) ∧
    outW.exportFlagAfter = false :=
  ⟨rfl, ((C4_export_one_shot terrainW collabW outW runW_ok).1 rfl).1,
    ((C4_export_one_shot terrainW collabW outW runW_ok).1 rfl).2.2⟩

/-- C8 counterexample: on the concrete configuration `terrainE`, whose
region list is empty, the run is not rejected before grid generation — the
noise-generation collaborator is invoked (it is invoked first,
unconditionally) and the run completes without any fatal error. -/
theorem C8_counterexample :
    terrainE.noise.regions = [] ∧
    (generate_terrain terrainE collabW).calls = [Event.noiseGen (derivedNoise terrainE)] ∧
    (generate_terrain terrainE collabW).result = Except.ok outE :=
  ⟨rfl, by decide, runE_ok⟩

/-- C8 (amended): a configuration with an empty region list is not rejected
before grid generation: the noise-generation collaborator is invoked at the
start of every run, before the region list is examined, and the run aborts
later only if the fallback gradient build fails. -/
theorem C8_noise_invoked_despite_empty_regions (t : Terrain) (C : Collaborators)
    (h : t.noise.regions = []) :
    Event.noiseGen (derivedNoise t) ∈ (generate_terrain t C).calls := by
  rcases hb : buildOrFallback
      (C.buildDeclared (regionColors t.noise.regions) (regionDomain t.noise.regions))
      (C.buildAuto (regionColors t.noise.regions)) with e | g0 <;>
    simp [generate_terrain, hb, assembleRun]

/-- Witness for the amended C8 at the concrete empty-region configuration. -/
theorem C8_noise_invoked_witness :
    Event.noiseGen (derivedNoise terrainE) ∈ (generate_terrain terrainE collabW).calls :=
  C8_noise_invoked_despite_empty_regions terrainE collabW rfl

end TerrainSpec
